import Mathlib

/-!
Verification development for the `techdebt-tracker` code-health analyzer
(`src/techdebt-tracker/src/main.rs`).

The program statically analyzes Rust source files and reports code metrics:
cyclomatic complexity per function, per-file totals, project-wide aggregates,
a maintainability index, and a top-offenders list.

Shallow embedding conventions:
* The syntax tree produced by the external parser (`syn`) is modelled by the
  inductive types `RExpr` / `RStmt` / `SynItem`.  Expressions that the
  complexity visitor does not inspect specially are collapsed into `eOther`
  (carrying their sub-expressions and any blocks of statements they contain),
  mirroring exactly what the default `syn::visit` traversal reaches.
* `usize` counters are `Nat` (no overflow is reachable for the claim
  statements, which are about exact counting identities).
* `kloc : f64` is modelled as an exact rational: the only operation performed
  on it is `loc as f64 / 1000.0`.
* The `f64` arithmetic of the maintainability index is modelled by `F64`,
  a four-way split into finite reals, the two infinities and NaN, with the
  IEEE special-value rules of the operations the code uses (`log2`, `*`, `-`,
  `/`, `f64::max`, `f64::min`).  Finite arithmetic is exact real arithmetic;
  rounding of finite values affects none of the stated properties (the clamp
  bounds and the NaN propagation are rounding-independent).
-/

/-! ## Syntax-tree model (the parser collaborator's output)

`RStmt` mirrors `syn::Stmt`: a `let` binding with optional initializer, an
item (a nested `fn` item carries its body, since the default visitor descends
into it; other items carry nothing the visitor counts), a macro invocation,
and an expression statement with or without a trailing semicolon.

`RExpr` mirrors the expression forms the visitor distinguishes
(`If`, `Match`, `While`, `ForLoop`, plus `Loop` and `Block`, which are
traversed but not counted); every other expression form is `eOther`,
carrying the sub-expressions and statement blocks the default traversal
would visit inside it (e.g. closure bodies, `unsafe` blocks). -/

mutual
inductive RExpr : Type where
  | eIf (cond : RExpr) (thenBr : List RStmt) (elseBr : Option RExpr) : RExpr
  | eMatch (scrut : RExpr) (arms : List RExpr) : RExpr
  | eWhile (cond : RExpr) (body : List RStmt) : RExpr
  | eForLoop (iter : RExpr) (body : List RStmt) : RExpr
  | eLoop (body : List RStmt) : RExpr
  | eBlock (body : List RStmt) : RExpr
  | eOther (subExprs : List RExpr) (subBlocks : List (List RStmt)) : RExpr

inductive RStmt : Type where
  | sLocal (init : Option RExpr) : RStmt
  | sItemFn (body : List RStmt) : RStmt
  | sItemOther : RStmt
  | sMac : RStmt
  | sExpr (e : RExpr) (semi : Bool) : RStmt
end

/-- The guard of `matches!(expr, Expr::If(_) | Expr::Match(_) | Expr::While(_)
| Expr::ForLoop(_))` in `visit_stmt` (main.rs lines 71-74). -/
def isBranchExpr : RExpr → Bool
  | .eIf .. => true
  | .eMatch .. => true
  | .eWhile .. => true
  | .eForLoop .. => true
  | _ => false

/-- The full `matches!(stmt, Stmt::Expr(expr, _) if ...)` guard: the statement
is an expression statement whose outermost expression is a branch form. -/
def isBranchStmt : RStmt → Bool
  | .sExpr e _ => isBranchExpr e
  | _ => false

/-- The guard of `let Stmt::Expr(syn::Expr::Block(_), _) = stmt`
(main.rs lines 78 and 85). -/
def isBlockStmt : RStmt → Bool
  | .sExpr (.eBlock _) _ => true
  | _ => false

/-- State of the cyclomatic-complexity visitor (main.rs lines 53-57). -/
structure CyclomaticComplexityVisitor where
  complexity : Nat
  max_nesting : Nat
  current_nesting : Nat
deriving DecidableEq

/-- `CyclomaticComplexityVisitor::new` (main.rs lines 60-66). -/
def CyclomaticComplexityVisitor.new : CyclomaticComplexityVisitor :=
  { complexity := 1, max_nesting := 0, current_nesting := 0 }

/-! The visitor only overrides `visit_stmt`; all other `syn::visit` methods
keep their default behaviour, which is to recurse into every child node.
`visit_stmt` below therefore mirrors main.rs lines 70-88, with the call
`syn::visit::visit_stmt(self, stmt)` (the default traversal one level down)
inlined as the `match` in the middle.  The companion functions walk the
children exactly as the default `syn::visit` implementations do. -/

mutual
/-- The overridden `visit_stmt` (main.rs lines 70-88): bump `complexity` on a
branch statement, push/pop nesting around a block statement, and recurse via
the default traversal. -/
def visit_stmt (v : CyclomaticComplexityVisitor) (s : RStmt) :
    CyclomaticComplexityVisitor :=
  let v1 := if isBranchStmt s then { v with complexity := v.complexity + 1 } else v
  let v2 := if isBlockStmt s then
      { v1 with current_nesting := v1.current_nesting + 1,
                max_nesting := max v1.max_nesting (v1.current_nesting + 1) }
    else v1
  let v3 :=
    match s with
    | .sLocal none => v2
    | .sLocal (some e) => visit_expr v2 e
    | .sItemFn body => visit_stmts v2 body
    | .sItemOther => v2
    | .sMac => v2
    | .sExpr e _ => visit_expr v2 e
  if isBlockStmt s then { v3 with current_nesting := v3.current_nesting - 1 } else v3

/-- Default `syn::visit::visit_expr`: recurse into every child of the
expression, visiting nested statement blocks statement by statement. -/
def visit_expr (v : CyclomaticComplexityVisitor) (e : RExpr) :
    CyclomaticComplexityVisitor :=
  match e with
  | .eIf c t els => visit_optExpr (visit_stmts (visit_expr v c) t) els
  | .eMatch sc arms => visit_exprs (visit_expr v sc) arms
  | .eWhile c b => visit_stmts (visit_expr v c) b
  | .eForLoop i b => visit_stmts (visit_expr v i) b
  | .eLoop b => visit_stmts v b
  | .eBlock b => visit_stmts v b
  | .eOther es bs => visit_blockList (visit_exprs v es) bs

def visit_optExpr (v : CyclomaticComplexityVisitor) (o : Option RExpr) :
    CyclomaticComplexityVisitor :=
  match o with
  | none => v
  | some e => visit_expr v e

def visit_stmts (v : CyclomaticComplexityVisitor) (l : List RStmt) :
    CyclomaticComplexityVisitor :=
  match l with
  | [] => v
  | s :: rest => visit_stmts (visit_stmt v s) rest

def visit_exprs (v : CyclomaticComplexityVisitor) (l : List RExpr) :
    CyclomaticComplexityVisitor :=
  match l with
  | [] => v
  | e :: rest => visit_exprs (visit_expr v e) rest

def visit_blockList (v : CyclomaticComplexityVisitor) (l : List (List RStmt)) :
    CyclomaticComplexityVisitor :=
  match l with
  | [] => v
  | b :: rest => visit_blockList (visit_stmts v b) rest
end

/-- `visitor.visit_item_fn(&func)` (main.rs line 117): the default
`visit_item_fn` visits the signature (which contains no statements) and then
the function's block, i.e. its list of statements. -/
def visit_item_fn (v : CyclomaticComplexityVisitor) (body : List RStmt) :
    CyclomaticComplexityVisitor :=
  visit_stmts v body

/-- Complexity the analyzer computes for one function body. -/
def functionComplexity (body : List RStmt) : Nat :=
  (visit_item_fn CyclomaticComplexityVisitor.new body).complexity

/-! ### Spec-side branch count

Modelled from the spec's words (§4.1): "For every statement in the body —
visited recursively, including statements nested inside nested blocks — if
that statement's outermost expression is a conditional, a pattern-match, or
one of the two loop forms, increment complexity by 1."  `branchCountStmts`
counts, over the same traversal, the statements whose outermost expression
is `if` / `match` / `while` / `for`. -/

mutual
def branchCountStmt : RStmt → Nat
  | .sLocal none => 0
  | .sLocal (some e) => branchCountExpr e
  | .sItemFn body => branchCountStmts body
  | .sItemOther => 0
  | .sMac => 0
  | .sExpr e _ => (if isBranchExpr e then 1 else 0) + branchCountExpr e

def branchCountExpr : RExpr → Nat
  | .eIf c t els => branchCountExpr c + branchCountStmts t + branchCountOpt els
  | .eMatch sc arms => branchCountExpr sc + branchCountExprs arms
  | .eWhile c b => branchCountExpr c + branchCountStmts b
  | .eForLoop i b => branchCountExpr i + branchCountStmts b
  | .eLoop b => branchCountStmts b
  | .eBlock b => branchCountStmts b
  | .eOther es bs => branchCountExprs es + branchCountBlocks bs

def branchCountOpt : Option RExpr → Nat
  | none => 0
  | some e => branchCountExpr e

def branchCountStmts : List RStmt → Nat
  | [] => 0
  | s :: rest => branchCountStmt s + branchCountStmts rest

def branchCountExprs : List RExpr → Nat
  | [] => 0
  | e :: rest => branchCountExpr e + branchCountExprs rest

def branchCountBlocks : List (List RStmt) → Nat
  | [] => 0
  | b :: rest => branchCountStmts b + branchCountBlocks rest
end

mutual
theorem visit_stmt_complexity (v : CyclomaticComplexityVisitor) (s : RStmt) :
    (visit_stmt v s).complexity = v.complexity + branchCountStmt s := by
  cases s with
  | sLocal init =>
    cases init with
    | none => simp [visit_stmt, isBranchStmt, isBlockStmt, branchCountStmt]
    | some e =>
      have h1 := visit_expr_complexity v e
      simp [visit_stmt, isBranchStmt, isBlockStmt, branchCountStmt, h1]
  | sItemFn body =>
    have h1 := visit_stmts_complexity v body
    simp [visit_stmt, isBranchStmt, isBlockStmt, branchCountStmt, h1]
  | sItemOther => simp [visit_stmt, isBranchStmt, isBlockStmt, branchCountStmt]
  | sMac => simp [visit_stmt, isBranchStmt, isBlockStmt, branchCountStmt]
  | sExpr e semi =>
    have h1 : ∀ w : CyclomaticComplexityVisitor,
        (visit_expr w e).complexity = w.complexity + branchCountExpr e :=
      fun w => visit_expr_complexity w e
    cases hB : isBlockStmt (RStmt.sExpr e semi) <;>
      cases hE : isBranchExpr e <;>
        simp [visit_stmt, isBranchStmt, hB, hE, branchCountStmt, h1] <;> omega

theorem visit_expr_complexity (v : CyclomaticComplexityVisitor) (e : RExpr) :
    (visit_expr v e).complexity = v.complexity + branchCountExpr e := by
  cases e with
  | eIf c t els =>
    have h1 := visit_expr_complexity v c
    have h2 := visit_stmts_complexity (visit_expr v c) t
    have h3 := visit_optExpr_complexity (visit_stmts (visit_expr v c) t) els
    simp only [visit_expr, branchCountExpr]
    omega
  | eMatch sc arms =>
    have h1 := visit_expr_complexity v sc
    have h2 := visit_exprs_complexity (visit_expr v sc) arms
    simp only [visit_expr, branchCountExpr]
    omega
  | eWhile c b =>
    have h1 := visit_expr_complexity v c
    have h2 := visit_stmts_complexity (visit_expr v c) b
    simp only [visit_expr, branchCountExpr]
    omega
  | eForLoop i b =>
    have h1 := visit_expr_complexity v i
    have h2 := visit_stmts_complexity (visit_expr v i) b
    simp only [visit_expr, branchCountExpr]
    omega
  | eLoop b =>
    have h1 := visit_stmts_complexity v b
    simp only [visit_expr, branchCountExpr]
    omega
  | eBlock b =>
    have h1 := visit_stmts_complexity v b
    simp only [visit_expr, branchCountExpr]
    omega
  | eOther es bs =>
    have h1 := visit_exprs_complexity v es
    have h2 := visit_blockList_complexity (visit_exprs v es) bs
    simp only [visit_expr, branchCountExpr]
    omega

theorem visit_optExpr_complexity (v : CyclomaticComplexityVisitor) (o : Option RExpr) :
    (visit_optExpr v o).complexity = v.complexity + branchCountOpt o := by
  cases o with
  | none => simp [visit_optExpr, branchCountOpt]
  | some e =>
    have h1 := visit_expr_complexity v e
    simp only [visit_optExpr, branchCountOpt]
    omega

theorem visit_stmts_complexity (v : CyclomaticComplexityVisitor) (l : List RStmt) :
    (visit_stmts v l).complexity = v.complexity + branchCountStmts l := by
  cases l with
  | nil => simp [visit_stmts, branchCountStmts]
  | cons s rest =>
    have h1 := visit_stmt_complexity v s
    have h2 := visit_stmts_complexity (visit_stmt v s) rest
    simp only [visit_stmts, branchCountStmts]
    omega

theorem visit_exprs_complexity (v : CyclomaticComplexityVisitor) (l : List RExpr) :
    (visit_exprs v l).complexity = v.complexity + branchCountExprs l := by
  cases l with
  | nil => simp [visit_exprs, branchCountExprs]
  | cons e rest =>
    have h1 := visit_expr_complexity v e
    have h2 := visit_exprs_complexity (visit_expr v e) rest
    simp only [visit_exprs, branchCountExprs]
    omega

theorem visit_blockList_complexity (v : CyclomaticComplexityVisitor)
    (l : List (List RStmt)) :
    (visit_blockList v l).complexity = v.complexity + branchCountBlocks l := by
  cases l with
  | nil => simp [visit_blockList, branchCountBlocks]
  | cons b rest =>
    have h1 := visit_stmts_complexity v b
    have h2 := visit_blockList_complexity (visit_stmts v b) rest
    simp only [visit_blockList, branchCountBlocks]
    omega
end

/-! ## Data model (main.rs lines 8-50) -/

/-- `FunctionMetric` (main.rs lines 28-34).  Note the Rust field is named
`function`, not `function_name`. -/
structure FunctionMetric where
  file : String
  function : String
  complexity : Nat
  loc : Nat
deriving DecidableEq

/-- `FileMetrics` (main.rs lines 36-41). -/
structure FileMetrics where
  file : String
  total_complexity : Nat
  functions : List FunctionMetric
deriving DecidableEq

/-- `CodeMetrics` (main.rs lines 9-25).  `kloc : f64` is modelled exactly as
a rational, since the only write to it is `total.loc as f64 / 1000.0`;
`cyclomatic_distribution: [usize; 3]` is a triple `[<=5, 6-10, >10]`. -/
structure CodeMetrics where
  loc : Nat
  kloc : ℚ
  cyclomatic_complexity : Nat
  functions : Nat
  comments : Nat
  longest_function_loc : Nat
  max_nesting_depth : Nat
  file_with_max_complexity : String
  max_file_complexity : Nat
  halstead_operators : Nat
  halstead_operands : Nat
  halstead_unique_operators : Nat
  halstead_unique_operands : Nat
  cyclomatic_distribution : Nat × Nat × Nat
deriving DecidableEq

/-- `CodeMetrics::default()` (the `#[derive(Default)]` on main.rs line 9). -/
def CodeMetrics.zero : CodeMetrics :=
  { loc := 0, kloc := 0, cyclomatic_complexity := 0, functions := 0,
    comments := 0, longest_function_loc := 0, max_nesting_depth := 0,
    file_with_max_complexity := "", max_file_complexity := 0,
    halstead_operators := 0, halstead_operands := 0,
    halstead_unique_operators := 0, halstead_unique_operands := 0,
    cyclomatic_distribution := (0, 0, 0) }

/-- Sum of the three histogram buckets. -/
def distSum : Nat × Nat × Nat → Nat
  | (a, b, c) => a + b + c

/-- The `match visitor.complexity { 0..=5 | 6..=10 | _ }` bucket update
(main.rs lines 123-127). -/
def bumpBucket (d : Nat × Nat × Nat) (c : Nat) : Nat × Nat × Nat :=
  if c ≤ 5 then (d.1 + 1, d.2.1, d.2.2)
  else if c ≤ 10 then (d.1, d.2.1 + 1, d.2.2)
  else (d.1, d.2.1, d.2.2 + 1)

/-- The `for i in 0..3` element-wise histogram sum (main.rs lines 164-166). -/
def addDist (d e : Nat × Nat × Nat) : Nat × Nat × Nat :=
  (d.1 + e.1, d.2.1 + e.2.1, d.2.2 + e.2.2)

/-! ## File analyzer (main.rs lines 91-144)

File reading (`fs::read_to_string`) and parsing (`syn::parse_file`) are
external collaborators; their outcome for the file under analysis is the
`ReadResult` input of `analyze_file`: either the read failed, or it produced
the raw text together with the parser's verdict on that text (`none` when
`syn::parse_file` failed, otherwise the file's top-level items). -/

/-- A top-level item of a parsed file: `syn::Item::Fn` with its name and the
statements of its block, or any other item (skipped by the analyzer). -/
inductive SynItem : Type where
  | itemFn (name : String) (body : List RStmt) : SynItem
  | itemOther : SynItem

/-- Outcome of `fs::read_to_string` and, when it succeeds, of
`syn::parse_file` on the text that was read. -/
inductive ReadResult : Type where
  | failure : ReadResult
  | success (content : String) (parsed : Option (List SynItem)) : ReadResult

/-- Rust's `str::lines()`: split at `\n`, strip a trailing `\r` from each
line, and do not produce a final empty line for a trailing newline. -/
def rustLines (s : String) : List String :=
  if s = "" then []
  else
    let parts := s.splitOn "\n"
    let parts := if s.endsWith "\n" then parts.dropLast else parts
    parts.map (fun l => if l.endsWith "\r" then l.dropRight 1 else l)

/-- The comment filter of main.rs lines 102-105: lines whose first
non-whitespace characters are `//` (`trim_start().starts_with("//")`;
whitespace is modelled as ASCII whitespace via `Char.isWhitespace`). -/
def commentCount (content : String) : Nat :=
  ((rustLines content).filter
    (fun line => (line.dropWhile Char.isWhitespace).startsWith "//")).length

/-- The per-item body of the `for item in syntax.items` loop
(main.rs lines 108-138), threading `(metrics, file_detail)`. -/
def analyzeItem (acc : CodeMetrics × FileMetrics) (item : SynItem) :
    CodeMetrics × FileMetrics :=
  match item with
  | .itemOther => acc
  | .itemFn fname body =>
    let metrics := acc.1
    let fd := acc.2
    let function_loc := body.length
    let visitor := visit_item_fn CyclomaticComplexityVisitor.new body
    let metrics :=
      { metrics with
        functions := metrics.functions + 1,
        longest_function_loc := max metrics.longest_function_loc function_loc,
        cyclomatic_complexity := metrics.cyclomatic_complexity + visitor.complexity,
        max_nesting_depth := max metrics.max_nesting_depth visitor.max_nesting,
        cyclomatic_distribution :=
          bumpBucket metrics.cyclomatic_distribution visitor.complexity }
    let fd :=
      { fd with
        total_complexity := fd.total_complexity + visitor.complexity,
        functions := fd.functions ++
          [{ file := fd.file, function := fname,
             complexity := visitor.complexity, loc := function_loc }] }
    (metrics, fd)

/-- `analyze_file` (main.rs lines 92-144). -/
def analyze_file (path : String) (r : ReadResult) : CodeMetrics × FileMetrics :=
  let metrics := CodeMetrics.zero
  let fd : FileMetrics := { file := path, total_complexity := 0, functions := [] }
  match r with
  | .failure => (metrics, fd)
  | .success content parsed =>
    let metrics :=
      { metrics with
        loc := (rustLines content).length,
        comments := commentCount content }
    match parsed with
    | none => (metrics, fd)
    | some items => items.foldl analyzeItem (metrics, fd)

/-! ## Project aggregator (main.rs lines 147-184)

Directory traversal is external (`WalkDir`); `calculate_metrics` consumes the
entries the walker yields.  For each entry the code checks
`path.is_file() && path.extension() == Some("rs")`; that predicate is the
oracle flag `isRsFile`, and the read/parse outcome for the entry's path is
its `read` field. -/

structure DirEntry where
  path : String
  isRsFile : Bool
  read : ReadResult

/-- One iteration of the `for entry in WalkDir::new(dir)` loop
(main.rs lines 152-176), threading `(total, files, all_functions)`. -/
def aggregateStep (acc : CodeMetrics × List FileMetrics × List FunctionMetric)
    (e : DirEntry) : CodeMetrics × List FileMetrics × List FunctionMetric :=
  if e.isRsFile then
    let total := acc.1
    let files := acc.2.1
    let all_functions := acc.2.2
    let fm := (analyze_file e.path e.read).1
    let detail := (analyze_file e.path e.read).2
    let total :=
      { total with
        loc := total.loc + fm.loc,
        cyclomatic_complexity :=
          total.cyclomatic_complexity + fm.cyclomatic_complexity,
        functions := total.functions + fm.functions,
        comments := total.comments + fm.comments,
        longest_function_loc :=
          max total.longest_function_loc fm.longest_function_loc,
        max_nesting_depth := max total.max_nesting_depth fm.max_nesting_depth,
        cyclomatic_distribution :=
          addDist total.cyclomatic_distribution fm.cyclomatic_distribution }
    let total :=
      if fm.cyclomatic_complexity > total.max_file_complexity then
        { total with
          max_file_complexity := fm.cyclomatic_complexity,
          file_with_max_complexity := detail.file }
      else total
    (total, files ++ [detail], all_functions ++ detail.functions)
  else acc

/-- The comparator of `all_functions.sort_by(|a, b|
b.complexity.cmp(&a.complexity))`: `a` may precede `b` iff
`b.complexity ≤ a.complexity` (descending complexity). -/
def complexityDesc (a b : FunctionMetric) : Bool :=
  b.complexity ≤ a.complexity

/-- `calculate_metrics` (main.rs lines 147-184).  Rust's stable `sort_by` is
modelled by the stable `List.mergeSort`. -/
def calculate_metrics (entries : List DirEntry) :
    CodeMetrics × List FileMetrics × List FunctionMetric :=
  let folded := entries.foldl aggregateStep (CodeMetrics.zero, [], [])
  let total := folded.1
  let files := folded.2.1
  let all_functions := folded.2.2
  let total := { total with kloc := (total.loc : ℚ) / 1000 }
  let sorted := all_functions.mergeSort complexityDesc
  (total, files, sorted.take 20)

/-! ## `f64` model for the maintainability index (main.rs lines 187-202)

`F64` splits a double into a finite value (an exact real), the two
infinities, and NaN.  The operations below implement the IEEE-754 rules Rust
`f64` follows for the operations this function uses, with finite arithmetic
taken exact (signed zeros are not distinguished; no operation in the formula
can produce a negative zero whose sign matters for the stated properties).
`F64.max`/`F64.min` are Rust's `f64::max`/`f64::min`, which return the other
operand when one argument is NaN. -/

inductive F64 : Type where
  | fin (x : ℝ) : F64
  | pinf : F64
  | ninf : F64
  | nan : F64

/-- `f64::log2`: `log2 0 = -inf`, `log2 x = NaN` for `x < 0`. -/
noncomputable def F64.log2 : F64 → F64
  | .fin x => if 0 < x then .fin (Real.logb 2 x) else if x = 0 then .ninf else .nan
  | .pinf => .pinf
  | .ninf => .nan
  | .nan => .nan

/-- IEEE multiplication; `0 * ±inf = NaN`. -/
noncomputable def F64.mul : F64 → F64 → F64
  | .fin x, .fin y => .fin (x * y)
  | .fin x, .pinf => if 0 < x then .pinf else if x < 0 then .ninf else .nan
  | .fin x, .ninf => if 0 < x then .ninf else if x < 0 then .pinf else .nan
  | .pinf, .fin y => if 0 < y then .pinf else if y < 0 then .ninf else .nan
  | .ninf, .fin y => if 0 < y then .ninf else if y < 0 then .pinf else .nan
  | .pinf, .pinf => .pinf
  | .pinf, .ninf => .ninf
  | .ninf, .pinf => .ninf
  | .ninf, .ninf => .pinf
  | .nan, _ => .nan
  | _, .nan => .nan

/-- IEEE subtraction; `inf - inf = NaN`. -/
def F64.sub : F64 → F64 → F64
  | .fin x, .fin y => .fin (x - y)
  | .fin _, .pinf => .ninf
  | .fin _, .ninf => .pinf
  | .pinf, .fin _ => .pinf
  | .ninf, .fin _ => .ninf
  | .pinf, .pinf => .nan
  | .pinf, .ninf => .pinf
  | .ninf, .pinf => .ninf
  | .ninf, .ninf => .nan
  | .nan, _ => .nan
  | _, .nan => .nan

/-- IEEE division (only finite / finite-nonzero is reachable in the
maintainability formula; the remaining cases follow IEEE with positive-zero
convention for the finite-over-infinity results). -/
noncomputable def F64.div : F64 → F64 → F64
  | .fin x, .fin y =>
      if y = 0 then (if x = 0 then .nan else if 0 < x then .pinf else .ninf)
      else .fin (x / y)
  | .fin _, .pinf => .fin 0
  | .fin _, .ninf => .fin 0
  | .pinf, .fin y => if 0 ≤ y then .pinf else .ninf
  | .ninf, .fin y => if 0 ≤ y then .ninf else .pinf
  | .pinf, .pinf => .nan
  | .pinf, .ninf => .nan
  | .ninf, .pinf => .nan
  | .ninf, .ninf => .nan
  | .nan, _ => .nan
  | _, .nan => .nan

/-- Rust `f64::max`: ignores a NaN argument. -/
noncomputable def F64.max : F64 → F64 → F64
  | .nan, b => b
  | a, .nan => a
  | .pinf, _ => .pinf
  | _, .pinf => .pinf
  | .ninf, b => b
  | a, .ninf => a
  | .fin x, .fin y => .fin (Max.max x y)

/-- Rust `f64::min`: ignores a NaN argument. -/
noncomputable def F64.min : F64 → F64 → F64
  | .nan, b => b
  | a, .nan => a
  | .ninf, _ => .ninf
  | _, .ninf => .ninf
  | .pinf, b => b
  | a, .pinf => a
  | .fin x, .fin y => .fin (Min.min x y)

/-- The `halstead_volume` local (main.rs lines 192-194):
`(u_ops + u_opnds) as f64 * ((u_ops + u_opnds) as f64).log2()`. -/
noncomputable def miVolume (metrics : CodeMetrics) : F64 :=
  (F64.fin ((metrics.halstead_unique_operators
      + metrics.halstead_unique_operands : ℕ) : ℝ)).mul
    (F64.fin ((metrics.halstead_unique_operators
      + metrics.halstead_unique_operands : ℕ) : ℝ)).log2

/-- The `avg_cyclomatic` local (main.rs line 195). -/
noncomputable def miAvg (metrics : CodeMetrics) : F64 :=
  (F64.fin (metrics.cyclomatic_complexity : ℝ)).div
    (F64.fin (metrics.functions : ℝ))

/-- The `index` local (main.rs lines 197-200):
`171.0 - 5.2 * volume.log2() - 0.23 * avg - 16.2 * (loc as f64).log2()`. -/
noncomputable def miFormula (metrics : CodeMetrics) : F64 :=
  (((F64.fin 171).sub ((F64.fin 5.2).mul (miVolume metrics).log2)).sub
      ((F64.fin 0.23).mul (miAvg metrics))).sub
    ((F64.fin 16.2).mul (F64.fin (metrics.loc : ℝ)).log2)

/-- The final clamp `index.max(0.0).min(100.0)` (main.rs line 201). -/
noncomputable def miClamp (index : F64) : F64 :=
  (index.max (F64.fin 0)).min (F64.fin 100)

/-- `calculate_maintainability_index` (main.rs lines 187-202). -/
noncomputable def calculate_maintainability_index (metrics : CodeMetrics) : F64 :=
  if metrics.functions = 0 then F64.fin 0
  else miClamp (miFormula metrics)

/-! ## JSON serialization model (serde derive, main.rs lines 9, 28, 36, 44
and the `--report json` branch, lines 238-245)

`#[derive(Serialize)]` on a struct serializes it as a JSON object whose keys
are the Rust field names, in declaration order.  The `Json` type and the
serializers below model exactly that shape; numeric leaves keep their model
type (`Nat` for the `usize` counters, `ℚ` for `kloc`, `F64` for the
maintainability index). -/

inductive Json : Type where
  | str (s : String) : Json
  | nat (n : Nat) : Json
  | rat (q : ℚ) : Json
  | f64 (x : F64) : Json
  | arr (elems : List Json) : Json
  | obj (fields : List (String × Json)) : Json

/-- Keys of a serialized object, in order. -/
def jsonKeys : Json → List String
  | .obj fields => fields.map Prod.fst
  | _ => []

/-- Serialization of `FunctionMetric` (field declarations, main.rs 28-34). -/
def serializeFunctionMetric (f : FunctionMetric) : Json :=
  .obj [("file", .str f.file), ("function", .str f.function),
        ("complexity", .nat f.complexity), ("loc", .nat f.loc)]

/-- Serialization of `FileMetrics` (field declarations, main.rs 36-41). -/
def serializeFileMetrics (fm : FileMetrics) : Json :=
  .obj [("file", .str fm.file), ("total_complexity", .nat fm.total_complexity),
        ("functions", .arr (fm.functions.map serializeFunctionMetric))]

/-- Serialization of `CodeMetrics` (field declarations, main.rs 9-25). -/
def serializeCodeMetrics (m : CodeMetrics) : Json :=
  .obj [("loc", .nat m.loc), ("kloc", .rat m.kloc),
        ("cyclomatic_complexity", .nat m.cyclomatic_complexity),
        ("functions", .nat m.functions), ("comments", .nat m.comments),
        ("longest_function_loc", .nat m.longest_function_loc),
        ("max_nesting_depth", .nat m.max_nesting_depth),
        ("file_with_max_complexity", .str m.file_with_max_complexity),
        ("max_file_complexity", .nat m.max_file_complexity),
        ("halstead_operators", .nat m.halstead_operators),
        ("halstead_operands", .nat m.halstead_operands),
        ("halstead_unique_operators", .nat m.halstead_unique_operators),
        ("halstead_unique_operands", .nat m.halstead_unique_operands),
        ("cyclomatic_distribution",
          .arr [.nat m.cyclomatic_distribution.1,
                .nat m.cyclomatic_distribution.2.1,
                .nat m.cyclomatic_distribution.2.2])]

/-- `Report` (main.rs lines 44-50). -/
structure Report where
  metrics : CodeMetrics
  maintainability_index : F64
  files : List FileMetrics
  top_functions : List FunctionMetric

/-- Serialization of `Report` (field declarations, main.rs 44-50), the value
printed by the `--report json` branch (main.rs 238-245). -/
def serializeReport (r : Report) : Json :=
  .obj [("metrics", serializeCodeMetrics r.metrics),
        ("maintainability_index", .f64 r.maintainability_index),
        ("files", .arr (r.files.map serializeFileMetrics)),
        ("top_functions", .arr (r.top_functions.map serializeFunctionMetric))]

/-! ## Aggregation helpers

`aggregateStep` threads a triple; the lemmas below split it into the totals
component (`totalsStep`), the per-file records (`filesOf`) and the collected
function records (`fnsOf`), which is how the claims talk about the fold. -/

/-- The totals component of `aggregateStep` (main.rs lines 157-171). -/
def totalsStep (t : CodeMetrics) (e : DirEntry) : CodeMetrics :=
  if e.isRsFile then
    let fm := (analyze_file e.path e.read).1
    let detail := (analyze_file e.path e.read).2
    let t1 :=
      { t with
        loc := t.loc + fm.loc,
        cyclomatic_complexity := t.cyclomatic_complexity + fm.cyclomatic_complexity,
        functions := t.functions + fm.functions,
        comments := t.comments + fm.comments,
        longest_function_loc := max t.longest_function_loc fm.longest_function_loc,
        max_nesting_depth := max t.max_nesting_depth fm.max_nesting_depth,
        cyclomatic_distribution :=
          addDist t.cyclomatic_distribution fm.cyclomatic_distribution }
    if fm.cyclomatic_complexity > t1.max_file_complexity then
      { t1 with
        max_file_complexity := fm.cyclomatic_complexity,
        file_with_max_complexity := detail.file }
    else t1
  else t

/-- The `.rs` entries the walker loop does not skip (main.rs line 154). -/
def rsEntries (l : List DirEntry) : List DirEntry :=
  l.filter (fun e => e.isRsFile)

/-- Per-file records pushed by the loop, in traversal order. -/
def filesOf (l : List DirEntry) : List FileMetrics :=
  (rsEntries l).map (fun e => (analyze_file e.path e.read).2)

/-- All `FunctionMetric` records collected across all analyzed files. -/
def fnsOf (l : List DirEntry) : List FunctionMetric :=
  ((rsEntries l).map (fun e => (analyze_file e.path e.read).2.functions)).flatten

theorem aggregateStep_fst (acc : CodeMetrics × List FileMetrics × List FunctionMetric)
    (e : DirEntry) : (aggregateStep acc e).1 = totalsStep acc.1 e := by
  by_cases h : e.isRsFile <;> simp [aggregateStep, totalsStep, h]

theorem rsEntries_cons (e : DirEntry) (l : List DirEntry) :
    rsEntries (e :: l) = if e.isRsFile then e :: rsEntries l else rsEntries l := by
  by_cases h : e.isRsFile <;> simp [rsEntries, List.filter_cons, h]

theorem foldl_aggregateStep_decomp :
    ∀ (l : List DirEntry) (t : CodeMetrics) (fs : List FileMetrics)
      (acc2 : List FunctionMetric),
      l.foldl aggregateStep (t, fs, acc2) =
        (l.foldl totalsStep t, fs ++ filesOf l, acc2 ++ fnsOf l) := by
  intro l
  induction l with
  | nil => intro t fs acc2; simp [filesOf, fnsOf, rsEntries]
  | cons e l ih =>
    intro t fs acc2
    by_cases h : e.isRsFile
    · have hstep : aggregateStep (t, fs, acc2) e =
          (totalsStep t e,
           fs ++ [(analyze_file e.path e.read).2],
           acc2 ++ (analyze_file e.path e.read).2.functions) := by
        simp [aggregateStep, totalsStep, h]
      simp only [List.foldl_cons, hstep, ih]
      simp [filesOf, fnsOf, rsEntries_cons, h, totalsStep]
    · have hstep : aggregateStep (t, fs, acc2) e = (t, fs, acc2) := by
        simp [aggregateStep, h]
      have hts : totalsStep t e = t := by simp [totalsStep, h]
      simp only [List.foldl_cons, hstep, ih]
      simp [filesOf, fnsOf, rsEntries_cons, h, hts]

/-- `calculate_metrics` in decomposed form. -/
theorem calculate_metrics_eq (entries : List DirEntry) :
    calculate_metrics entries =
      ({ entries.foldl totalsStep CodeMetrics.zero with
          kloc := ((entries.foldl totalsStep CodeMetrics.zero).loc : ℚ) / 1000 },
       filesOf entries,
       ((fnsOf entries).mergeSort complexityDesc).take 20) := by
  simp [calculate_metrics, foldl_aggregateStep_decomp]

/-! ## Per-file facts -/

theorem distSum_bumpBucket (d : Nat × Nat × Nat) (c : Nat) :
    distSum (bumpBucket d c) = distSum d + 1 := by
  obtain ⟨a, b, k⟩ := d
  simp only [bumpBucket, distSum]
  split <;> [omega; (split <;> omega)]

theorem distSum_addDist (d e : Nat × Nat × Nat) :
    distSum (addDist d e) = distSum d + distSum e := by
  obtain ⟨a, b, k⟩ := d; obtain ⟨x, y, z⟩ := e
  simp [addDist, distSum]; omega

theorem analyzeItem_fold_functions :
    ∀ (items : List SynItem) (acc : CodeMetrics × FileMetrics),
      distSum acc.1.cyclomatic_distribution = acc.1.functions →
      distSum (items.foldl analyzeItem acc).1.cyclomatic_distribution =
        (items.foldl analyzeItem acc).1.functions := by
  intro items
  induction items with
  | nil => intro acc h; simpa using h
  | cons item rest ih =>
    intro acc h
    cases item with
    | itemOther => exact ih _ (by simpa [analyzeItem] using h)
    | itemFn fname body =>
      apply ih
      simp only [analyzeItem, distSum_bumpBucket]
      omega

/-- Per-file invariant: every analyzed function lands in exactly one bucket. -/
theorem analyze_file_dist (path : String) (r : ReadResult) :
    distSum (analyze_file path r).1.cyclomatic_distribution =
      (analyze_file path r).1.functions := by
  cases r with
  | failure => simp [analyze_file, CodeMetrics.zero, distSum]
  | success content parsed =>
    cases parsed with
    | none => simp [analyze_file, CodeMetrics.zero, distSum]
    | some items =>
      exact analyzeItem_fold_functions items _ (by simp [CodeMetrics.zero, distSum])

/-- The per-file detail's `file` field is the analyzed path. -/
theorem analyze_file_path (path : String) (r : ReadResult) :
    (analyze_file path r).2.file = path := by
  have hfold : ∀ (items : List SynItem) (acc : CodeMetrics × FileMetrics),
      (items.foldl analyzeItem acc).2.file = acc.2.file := by
    intro items
    induction items with
    | nil => intro acc; rfl
    | cons item rest ih =>
      intro acc
      cases item with
      | itemOther => exact ih _
      | itemFn fname body => simpa [analyzeItem] using ih _
  cases r with
  | failure => rfl
  | success content parsed =>
    cases parsed with
    | none => rfl
    | some items => exact hfold items _

/-- The metrics contribution's total complexity and the per-file detail's
`total_complexity` advance together (main.rs lines 119 and 130). -/
theorem analyze_file_total_complexity (path : String) (r : ReadResult) :
    (analyze_file path r).2.total_complexity =
      (analyze_file path r).1.cyclomatic_complexity := by
  have hfold : ∀ (items : List SynItem) (acc : CodeMetrics × FileMetrics),
      acc.2.total_complexity = acc.1.cyclomatic_complexity →
      (items.foldl analyzeItem acc).2.total_complexity =
        (items.foldl analyzeItem acc).1.cyclomatic_complexity := by
    intro items
    induction items with
    | nil => intro acc h; simpa using h
    | cons item rest ih =>
      intro acc h
      cases item with
      | itemOther => exact ih _ (by simpa [analyzeItem] using h)
      | itemFn fname body =>
        apply ih
        simp [analyzeItem, h]
  cases r with
  | failure => rfl
  | success content parsed =>
    cases parsed with
    | none => rfl
    | some items => exact hfold items _ (by simp [CodeMetrics.zero])

/-! ## Totals-fold facts -/

theorem totalsStep_dist_functions (t : CodeMetrics) (e : DirEntry) :
    distSum t.cyclomatic_distribution = t.functions →
    distSum (totalsStep t e).cyclomatic_distribution = (totalsStep t e).functions := by
  intro h
  by_cases he : e.isRsFile
  · have hfile := analyze_file_dist e.path e.read
    simp only [totalsStep, he, if_true]
    split <;> simp [distSum_addDist, h, hfile]
  · simpa [totalsStep, he] using h

theorem totalsFold_dist_functions :
    ∀ (l : List DirEntry) (t : CodeMetrics),
      distSum t.cyclomatic_distribution = t.functions →
      distSum (l.foldl totalsStep t).cyclomatic_distribution =
        (l.foldl totalsStep t).functions := by
  intro l
  induction l with
  | nil => intro t h; simpa using h
  | cons e l ih => intro t h; exact ih _ (totalsStep_dist_functions t e h)

theorem totalsStep_halstead (t : CodeMetrics) (e : DirEntry) :
    (totalsStep t e).halstead_unique_operators = t.halstead_unique_operators ∧
    (totalsStep t e).halstead_unique_operands = t.halstead_unique_operands := by
  by_cases he : e.isRsFile
  · simp only [totalsStep, he, if_true]
    split <;> simp
  · simp [totalsStep, he]

theorem totalsFold_halstead :
    ∀ (l : List DirEntry) (t : CodeMetrics),
      (l.foldl totalsStep t).halstead_unique_operators = t.halstead_unique_operators ∧
      (l.foldl totalsStep t).halstead_unique_operands = t.halstead_unique_operands := by
  intro l
  induction l with
  | nil => intro t; exact ⟨rfl, rfl⟩
  | cons e l ih =>
    intro t
    refine ⟨?_, ?_⟩
    · rw [List.foldl_cons, (ih _).1, (totalsStep_halstead t e).1]
    · rw [List.foldl_cons, (ih _).2, (totalsStep_halstead t e).2]

/-- C3: after analyzing any file and after aggregating any sequence of
files, the three `cyclomatic_distribution` buckets sum to the `functions`
counter: every analyzed function increments exactly one bucket, and both
sides are summed element-wise during aggregation. -/
theorem C3_distribution_sums_to_functions :
    (∀ (path : String) (r : ReadResult),
      distSum (analyze_file path r).1.cyclomatic_distribution =
        (analyze_file path r).1.functions) ∧
    (∀ entries : List DirEntry,
      distSum (calculate_metrics entries).1.cyclomatic_distribution =
        (calculate_metrics entries).1.functions) := by
  refine ⟨analyze_file_dist, ?_⟩
  intro entries
  rw [calculate_metrics_eq]
  exact totalsFold_dist_functions entries CodeMetrics.zero
    (by simp [CodeMetrics.zero, distSum])

/-- C8: the final `kloc` equals `loc` (as an exact number) divided by 1000,
set once after the fold (main.rs line 178). -/
theorem C8_kloc_is_loc_div_1000 :
    ∀ entries : List DirEntry,
      (calculate_metrics entries).1.kloc =
        ((calculate_metrics entries).1.loc : ℚ) / 1000 := by
  intro entries
  rw [calculate_metrics_eq]

/-- C5: a file that reads successfully but fails to parse still contributes
its newline-delimited line count and its `//`-comment line count, with zero
functions, zero complexity, an all-zero distribution, and an empty per-file
function list. -/
theorem C5_parse_failure_keeps_loc_and_comments :
    ∀ (path content : String),
      analyze_file path (ReadResult.success content none) =
        ({ CodeMetrics.zero with
            loc := (rustLines content).length,
            comments := commentCount content },
         { file := path, total_complexity := 0, functions := [] }) := by
  intro path content
  rfl

/-- C1: for every function body, the complexity visitor returns 1 plus the
number of statements — visited recursively, nested blocks included — whose
outermost expression is `if`, `match`, `while` or `for`; in particular a
body with no such statement gets complexity 1. -/
theorem C1_complexity_one_plus_branch_statements :
    (∀ body : List RStmt,
      functionComplexity body = 1 + branchCountStmts body) ∧
    (∀ body : List RStmt,
      branchCountStmts body = 0 → functionComplexity body = 1) := by
  have key : ∀ body : List RStmt,
      functionComplexity body = 1 + branchCountStmts body := by
    intro body
    have h := visit_stmts_complexity CyclomaticComplexityVisitor.new body
    simpa [functionComplexity, visit_item_fn, CyclomaticComplexityVisitor.new,
      Nat.add_comm] using h
  exact ⟨key, fun body h0 => by simp [key body, h0]⟩

/-- Witness for C1 at two concrete bodies: an `if` followed by a nested block
holding a `while` (complexity 3), and a branch-free body (complexity 1). -/
theorem C1_complexity_one_plus_branch_statements_witness :
    branchCountStmts [RStmt.sLocal none] = 0 ∧
      functionComplexity [RStmt.sLocal none] = 1 ∧
      functionComplexity
          [RStmt.sExpr (RExpr.eIf (RExpr.eOther [] []) [] none) false,
           RStmt.sExpr
             (RExpr.eBlock [RStmt.sExpr (RExpr.eWhile (RExpr.eOther [] []) []) true])
             true] =
        1 + branchCountStmts
          [RStmt.sExpr (RExpr.eIf (RExpr.eOther [] []) [] none) false,
           RStmt.sExpr
             (RExpr.eBlock [RStmt.sExpr (RExpr.eWhile (RExpr.eOther [] []) []) true])
             true] :=
  ⟨by decide,
   C1_complexity_one_plus_branch_statements.2 [RStmt.sLocal none] (by decide),
   C1_complexity_one_plus_branch_statements.1 _⟩

/-- A read failure contributes nothing to the running totals. -/
theorem totalsStep_read_failure (t : CodeMetrics) (path : String) :
    totalsStep t { path := path, isRsFile := true, read := ReadResult.failure } = t := by
  cases t
  simp [totalsStep, analyze_file, CodeMetrics.zero, addDist]

/-- C7: a file whose content cannot be read yields an all-zero metrics
contribution and an empty `FileMetrics`; the failure is absorbed, and a run
that hits such a file produces the same totals and top list as one without
it (the file only adds its empty per-file record). -/
theorem C7_read_failure_absorbed :
    (∀ path : String,
      analyze_file path ReadResult.failure =
        (CodeMetrics.zero,
         { file := path, total_complexity := 0, functions := [] })) ∧
    (∀ (path : String) (rest : List DirEntry),
      calculate_metrics
          ({ path := path, isRsFile := true, read := ReadResult.failure } :: rest) =
        ((calculate_metrics rest).1,
         { file := path, total_complexity := 0, functions := [] } ::
           (calculate_metrics rest).2.1,
         (calculate_metrics rest).2.2)) := by
  constructor
  · intro path; rfl
  · intro path rest
    rw [calculate_metrics_eq, calculate_metrics_eq]
    rw [List.foldl_cons, totalsStep_read_failure]
    have hfiles : filesOf
        ({ path := path, isRsFile := true, read := ReadResult.failure } :: rest) =
        { file := path, total_complexity := 0, functions := [] } :: filesOf rest := by
      simp [filesOf, rsEntries_cons, analyze_file]
    have hfns : fnsOf
        ({ path := path, isRsFile := true, read := ReadResult.failure } :: rest) =
        fnsOf rest := by
      simp [fnsOf, rsEntries_cons, analyze_file]
    rw [hfiles, hfns]

theorem complexityDesc_trans (a b c : FunctionMetric) :
    complexityDesc a b → complexityDesc b c → complexityDesc a c := by
  simp only [complexityDesc, decide_eq_true_eq]
  omega

theorem complexityDesc_total (a b : FunctionMetric) :
    complexityDesc a b || complexityDesc b a := by
  simp only [complexityDesc, Bool.or_eq_true, decide_eq_true_eq]
  omega

/-- C4: `top_functions` has length at most 20, is sorted by non-increasing
complexity, and is the 20-element prefix of a descending-complexity sorting
of all collected `FunctionMetric` records. -/
theorem C4_top_functions_sorted_first_twenty :
    ∀ entries : List DirEntry,
      ((calculate_metrics entries).2.2).length ≤ 20 ∧
      List.Pairwise (fun a b : FunctionMetric => b.complexity ≤ a.complexity)
        ((calculate_metrics entries).2.2) ∧
      ∃ L : List FunctionMetric,
        L.Perm (fnsOf entries) ∧
        List.Pairwise (fun a b : FunctionMetric => b.complexity ≤ a.complexity) L ∧
        (calculate_metrics entries).2.2 = L.take 20 := by
  intro entries
  have htop : (calculate_metrics entries).2.2 =
      ((fnsOf entries).mergeSort complexityDesc).take 20 := by
    rw [calculate_metrics_eq]
  have hsorted0 :
      ((fnsOf entries).mergeSort complexityDesc).Pairwise
        (fun a b => complexityDesc a b) :=
    List.sorted_mergeSort complexityDesc_trans complexityDesc_total (fnsOf entries)
  have hsorted :
      ((fnsOf entries).mergeSort complexityDesc).Pairwise
        (fun a b : FunctionMetric => b.complexity ≤ a.complexity) :=
    hsorted0.imp (fun h => by simpa [complexityDesc] using h)
  refine ⟨?_, ?_, ((fnsOf entries).mergeSort complexityDesc),
    List.mergeSort_perm (fnsOf entries) complexityDesc, hsorted, htop⟩
  · rw [htop, List.length_take]
    omega
  · rw [htop]
    exact List.Pairwise.sublist (List.take_sublist 20 _) hsorted

/-! ## Max-file tracking (main.rs lines 168-171) -/

/-- A file's total complexity (the per-file sum of its functions'
complexities; by `analyze_file_total_complexity` this is also the
`cyclomatic_complexity` of the file's metrics contribution, which is what
the comparison on main.rs line 168 reads). -/
def fileComplexityOf (e : DirEntry) : Nat :=
  (analyze_file e.path e.read).2.total_complexity

/-- Running maximum of per-file complexities, seeded with the
`Default`-initialized 0. -/
def maxCompFold (M : Nat) (l : List DirEntry) : Nat :=
  l.foldl (fun a e => Max.max a (fileComplexityOf e)) M

/-- Maximum per-file total complexity over a run (0 when no files). -/
def maxFileComp (entries : List DirEntry) : Nat :=
  maxCompFold 0 (rsEntries entries)

/-- The `(max_file_complexity, file_with_max_complexity)` update of one loop
iteration: replace the pair only on strict excess. -/
def maxNameStep (acc : Nat × String) (e : DirEntry) : Nat × String :=
  if fileComplexityOf e > acc.1 then (fileComplexityOf e, e.path) else acc

theorem totalsStep_maxname (t : CodeMetrics) (e : DirEntry) :
    ((totalsStep t e).max_file_complexity,
     (totalsStep t e).file_with_max_complexity) =
      if e.isRsFile then
        maxNameStep (t.max_file_complexity, t.file_with_max_complexity) e
      else (t.max_file_complexity, t.file_with_max_complexity) := by
  by_cases he : e.isRsFile
  · have hc : fileComplexityOf e =
        (analyze_file e.path e.read).1.cyclomatic_complexity :=
      analyze_file_total_complexity e.path e.read
    simp only [totalsStep, maxNameStep, he, if_true, hc,
      analyze_file_path e.path e.read]
    split <;> simp [analyze_file_path]
  · simp [totalsStep, he]

theorem totalsFold_maxname :
    ∀ (l : List DirEntry) (t : CodeMetrics),
      ((l.foldl totalsStep t).max_file_complexity,
       (l.foldl totalsStep t).file_with_max_complexity) =
        (rsEntries l).foldl maxNameStep
          (t.max_file_complexity, t.file_with_max_complexity) := by
  intro l
  induction l with
  | nil => intro t; simp [rsEntries]
  | cons e l ih =>
    intro t
    by_cases he : e.isRsFile
    · rw [List.foldl_cons, rsEntries_cons]
      simp only [he, if_true, List.foldl_cons]
      rw [ih (totalsStep t e)]
      rw [show maxNameStep (t.max_file_complexity, t.file_with_max_complexity) e =
        ((totalsStep t e).max_file_complexity,
         (totalsStep t e).file_with_max_complexity) from by
          rw [totalsStep_maxname]; simp [he]]
    · rw [List.foldl_cons, rsEntries_cons]
      simp only [he, if_false, Bool.false_eq_true]
      rw [ih (totalsStep t e)]
      have := totalsStep_maxname t e
      simp only [he, if_false, Bool.false_eq_true] at this
      rw [show (totalsStep t e).max_file_complexity = t.max_file_complexity from
          congrArg Prod.fst this,
        show (totalsStep t e).file_with_max_complexity =
            t.file_with_max_complexity from congrArg Prod.snd this]

theorem le_maxCompFold : ∀ (l : List DirEntry) (M : Nat), M ≤ maxCompFold M l := by
  intro l
  induction l with
  | nil => intro M; simp [maxCompFold]
  | cons e l ih =>
    intro M
    calc M ≤ Max.max M (fileComplexityOf e) := Nat.le_max_left _ _
    _ ≤ maxCompFold (Max.max M (fileComplexityOf e)) l := ih _

theorem maxNameFold_spec :
    ∀ (l : List DirEntry) (M : Nat) (n : String),
      (l.foldl maxNameStep (M, n)).1 = maxCompFold M l ∧
      (maxCompFold M l = M → (l.foldl maxNameStep (M, n)).2 = n) ∧
      (M < maxCompFold M l →
        ∃ pre e post,
          l = pre ++ e :: post ∧
          fileComplexityOf e = maxCompFold M l ∧
          (∀ e' ∈ pre, fileComplexityOf e' < maxCompFold M l) ∧
          (l.foldl maxNameStep (M, n)).2 = e.path) := by
  intro l
  induction l with
  | nil =>
    intro M n
    refine ⟨rfl, fun _ => rfl, fun h => absurd h (by simp [maxCompFold])⟩
  | cons e l ih =>
    intro M n
    set c := fileComplexityOf e with hc
    have hK : maxCompFold M (e :: l) = maxCompFold (Max.max M c) l := rfl
    by_cases h : c > M
    · have hmax : Max.max M c = c := Nat.max_eq_right (Nat.le_of_lt h)
      have hstep : maxNameStep (M, n) e = (c, e.path) := by
        simp [maxNameStep, h]
      obtain ⟨ih1, ih2, ih3⟩ := ih c e.path
      have hKc : maxCompFold M (e :: l) = maxCompFold c l := by rw [hK, hmax]
      refine ⟨?_, ?_, ?_⟩
      · rw [List.foldl_cons, hstep, ih1, hKc]
      · intro hKM
        have := le_maxCompFold l c
        rw [hKc] at hKM
        omega
      · intro hlt
        rcases Nat.lt_or_ge c (maxCompFold c l) with hcase | hcase
        · obtain ⟨pre, x, post, hl, hx, hpre, hsnd⟩ := ih3 hcase
          refine ⟨e :: pre, x, post, by rw [hl]; simp, by rw [hKc]; exact hx, ?_, ?_⟩
          · intro e' he'
            rcases List.mem_cons.mp he' with rfl | he'
            · rw [hKc]; exact hcase
            · rw [hKc]; exact hpre e' he'
          · rw [List.foldl_cons, hstep]; exact hsnd
        · have hceq : maxCompFold c l = c :=
            Nat.le_antisymm hcase (le_maxCompFold l c)
          refine ⟨[], e, l, by simp, by rw [hKc, hceq], by simp, ?_⟩
          rw [List.foldl_cons, hstep]
          exact ih2 hceq
    · have hle : c ≤ M := Nat.le_of_not_lt h
      have hmax : Max.max M c = M := Nat.max_eq_left hle
      have hstep : maxNameStep (M, n) e = (M, n) := by
        simp [maxNameStep, h]
      obtain ⟨ih1, ih2, ih3⟩ := ih M n
      have hKM : maxCompFold M (e :: l) = maxCompFold M l := by rw [hK, hmax]
      refine ⟨?_, ?_, ?_⟩
      · rw [List.foldl_cons, hstep, ih1, hKM]
      · intro hKMeq
        rw [List.foldl_cons, hstep]
        exact ih2 (by rw [hKM] at hKMeq; exact hKMeq)
      · intro hlt
        rw [hKM] at hlt
        obtain ⟨pre, x, post, hl, hx, hpre, hsnd⟩ := ih3 hlt
        refine ⟨e :: pre, x, post, by rw [hl]; simp, by rw [hKM]; exact hx, ?_, ?_⟩
        · intro e' he'
          rcases List.mem_cons.mp he' with rfl | he'
          · rw [hKM]; omega
          · rw [hKM]; exact hpre e' he'
        · rw [List.foldl_cons, hstep]; exact hsnd

/-- C6 counterexample: one `.rs` file whose read fails has total complexity
0, which is the maximum over the run, yet `file_with_max_complexity` keeps
its `Default`-initialized empty string instead of naming that earliest file
("a.rs"): the pair is only written on strict excess over the initial 0. -/
theorem C6_counterexample_zero_max_keeps_empty_name :
    (calculate_metrics
        [{ path := "a.rs", isRsFile := true,
           read := ReadResult.failure }]).1.max_file_complexity = 0 ∧
    fileComplexityOf
        { path := "a.rs", isRsFile := true, read := ReadResult.failure } = 0 ∧
    rsEntries [{ path := "a.rs", isRsFile := true, read := ReadResult.failure }] =
      [{ path := "a.rs", isRsFile := true, read := ReadResult.failure }] ∧
    (calculate_metrics
        [{ path := "a.rs", isRsFile := true,
           read := ReadResult.failure }]).1.file_with_max_complexity = "" ∧
    ("" == "a.rs") = false :=
  ⟨by decide, by decide, rfl, by decide, by decide⟩

/-- C6 (amended): `max_file_complexity` and `file_with_max_complexity` are
updated together, only on strict excess, ties keeping the earlier file; after
the fold, `max_file_complexity` is the maximum per-file total complexity
(0 with no files).  When that maximum is positive,
`file_with_max_complexity` names the earliest file attaining it; when it is
0 (no file exceeds the initial 0), the field keeps the
`Default`-initialized empty string and names no file. -/
theorem C6_max_file_tracking :
    ∀ entries : List DirEntry,
      (calculate_metrics entries).1.max_file_complexity = maxFileComp entries ∧
      (maxFileComp entries = 0 →
        (calculate_metrics entries).1.file_with_max_complexity = "") ∧
      (0 < maxFileComp entries →
        ∃ pre e post,
          rsEntries entries = pre ++ e :: post ∧
          fileComplexityOf e = maxFileComp entries ∧
          (∀ e' ∈ pre, fileComplexityOf e' < maxFileComp entries) ∧
          (calculate_metrics entries).1.file_with_max_complexity = e.path) := by
  intro entries
  have hlink := totalsFold_maxname entries CodeMetrics.zero
  obtain ⟨hspec1, hspec2, hspec3⟩ := maxNameFold_spec (rsEntries entries) 0 ""
  have hmaxeq : (calculate_metrics entries).1.max_file_complexity =
      ((rsEntries entries).foldl maxNameStep (0, "")).1 := by
    rw [calculate_metrics_eq]
    simpa [CodeMetrics.zero] using congrArg Prod.fst hlink
  have hnameeq : (calculate_metrics entries).1.file_with_max_complexity =
      ((rsEntries entries).foldl maxNameStep (0, "")).2 := by
    rw [calculate_metrics_eq]
    simpa [CodeMetrics.zero] using congrArg Prod.snd hlink
  refine ⟨?_, ?_, ?_⟩
  · rw [hmaxeq, hspec1]; rfl
  · intro h0
    rw [hnameeq]
    exact hspec2 h0
  · intro hpos
    obtain ⟨pre, e, post, hl, he, hpre, hsnd⟩ := hspec3 hpos
    exact ⟨pre, e, post, hl, he, hpre, by rw [hnameeq]; exact hsnd⟩

/-- Witness for C6 at a run with one parsed single-function file: the
maximum is positive and `file_with_max_complexity` names that earliest
attaining file. -/
theorem C6_max_file_tracking_witness :
    0 < maxFileComp
        [{ path := "a.rs", isRsFile := true,
           read := ReadResult.success "" (some [SynItem.itemFn "main" []]) }] ∧
    (∃ pre e post,
      rsEntries
          [{ path := "a.rs", isRsFile := true,
             read := ReadResult.success "" (some [SynItem.itemFn "main" []]) }] =
        pre ++ e :: post ∧
      fileComplexityOf e =
        maxFileComp
          [{ path := "a.rs", isRsFile := true,
             read := ReadResult.success "" (some [SynItem.itemFn "main" []]) }] ∧
      (∀ e' ∈ pre, fileComplexityOf e' <
        maxFileComp
          [{ path := "a.rs", isRsFile := true,
             read := ReadResult.success "" (some [SynItem.itemFn "main" []]) }]) ∧
      (calculate_metrics
          [{ path := "a.rs", isRsFile := true,
             read := ReadResult.success "" (some [SynItem.itemFn "main" []]) }]
        ).1.file_with_max_complexity = e.path) :=
  ⟨by decide,
   (C6_max_file_tracking
     [{ path := "a.rs", isRsFile := true,
        read := ReadResult.success "" (some [SynItem.itemFn "main" []]) }]).2.2
     (by decide)⟩

/-! ## Maintainability-index facts -/

/-- The clamp `index.max(0.0).min(100.0)` always lands on a finite value in
`[0, 100]`: Rust's NaN-ignoring `max`/`min` send NaN and `-inf` to 0 and
`+inf` to 100. -/
theorem miClamp_bounds (d : F64) :
    ∃ x : ℝ, miClamp d = F64.fin x ∧ 0 ≤ x ∧ x ≤ 100 := by
  cases d with
  | fin x =>
    refine ⟨Min.min (Max.max x 0) 100, ?_, ?_, ?_⟩
    · simp [miClamp, F64.max, F64.min]
    · exact le_min (le_max_right x 0) (by norm_num)
    · exact min_le_right _ _
  | pinf =>
    exact ⟨100, by simp [miClamp, F64.max, F64.min], by norm_num, le_refl _⟩
  | ninf =>
    refine ⟨0, ?_, le_refl _, by norm_num⟩
    simp [miClamp, F64.max, F64.min]
  | nan =>
    refine ⟨0, ?_, le_refl _, by norm_num⟩
    simp [miClamp, F64.max, F64.min]

/-- With no recorded unique operators/operands the Halstead volume is
`0 * log2(0) = 0 * -inf = NaN`. -/
theorem miVolume_nan (m : CodeMetrics)
    (h : m.halstead_unique_operators + m.halstead_unique_operands = 0) :
    miVolume m = F64.nan := by
  have h0 : ((m.halstead_unique_operators + m.halstead_unique_operands : ℕ) : ℝ)
      = 0 := by exact_mod_cast h
  simp [miVolume, h0, F64.log2, F64.mul]

/-- A NaN volume poisons the whole formula. -/
theorem miFormula_nan (m : CodeMetrics) (h : miVolume m = F64.nan) :
    miFormula m = F64.nan := by
  simp [miFormula, h, F64.log2, F64.mul, F64.sub]

theorem miClamp_nan : miClamp F64.nan = F64.fin 0 := by
  simp [miClamp, F64.max, F64.min]

/-- C2: `calculate_maintainability_index` returns 0.0 when `functions == 0`,
and otherwise the clamp of the classical formula, a finite value inside
`[0, 100]` (NaN and `-inf` clamp to 0, `+inf` to 100). -/
theorem C2_maintainability_in_range :
    ∀ m : CodeMetrics,
      (m.functions = 0 → calculate_maintainability_index m = F64.fin 0) ∧
      (m.functions ≠ 0 →
        calculate_maintainability_index m = miClamp (miFormula m) ∧
        ∃ x : ℝ, calculate_maintainability_index m = F64.fin x ∧
          0 ≤ x ∧ x ≤ 100) := by
  intro m
  constructor
  · intro h; simp [calculate_maintainability_index, h]
  · intro h
    have he : calculate_maintainability_index m = miClamp (miFormula m) := by
      simp [calculate_maintainability_index, h]
    exact ⟨he, by rw [he]; exact miClamp_bounds (miFormula m)⟩

/-- Witness for C2 at `functions = 0` and at `functions = 1`. -/
theorem C2_maintainability_in_range_witness :
    CodeMetrics.zero.functions = 0 ∧
    calculate_maintainability_index CodeMetrics.zero = F64.fin 0 ∧
    ({ CodeMetrics.zero with functions := 1 } : CodeMetrics).functions ≠ 0 ∧
    calculate_maintainability_index { CodeMetrics.zero with functions := 1 } =
      miClamp (miFormula { CodeMetrics.zero with functions := 1 }) :=
  ⟨rfl, (C2_maintainability_in_range CodeMetrics.zero).1 rfl, by decide,
   ((C2_maintainability_in_range
     { CodeMetrics.zero with functions := 1 }).2 (by decide)).1⟩

/-- C10: the Halstead counters are never written by any analyzer, the volume
term is `0 * log2(0) = NaN`, the formula is NaN, and the final clamp maps
NaN to 0.0 — so the reported maintainability index is 0.0 on every run. -/
theorem C10_reported_index_always_zero :
    (∀ m : CodeMetrics, 0 < m.functions →
      m.halstead_unique_operators + m.halstead_unique_operands = 0 →
      calculate_maintainability_index m = F64.fin 0) ∧
    (∀ entries : List DirEntry,
      (calculate_metrics entries).1.halstead_unique_operators = 0 ∧
      (calculate_metrics entries).1.halstead_unique_operands = 0 ∧
      calculate_maintainability_index (calculate_metrics entries).1 =
        F64.fin 0) := by
  have key : ∀ m : CodeMetrics,
      m.halstead_unique_operators + m.halstead_unique_operands = 0 →
      calculate_maintainability_index m = F64.fin 0 := by
    intro m h
    by_cases hf : m.functions = 0
    · simp [calculate_maintainability_index, hf]
    · rw [calculate_maintainability_index, if_neg hf,
        miFormula_nan m (miVolume_nan m h), miClamp_nan]
  constructor
  · exact fun m _ h => key m h
  · intro entries
    have hh := totalsFold_halstead entries CodeMetrics.zero
    have h1 : (calculate_metrics entries).1.halstead_unique_operators = 0 := by
      rw [calculate_metrics_eq]
      simpa [CodeMetrics.zero] using hh.1
    have h2 : (calculate_metrics entries).1.halstead_unique_operands = 0 := by
      rw [calculate_metrics_eq]
      simpa [CodeMetrics.zero] using hh.2
    exact ⟨h1, h2, key _ (by rw [h1, h2])⟩

/-- Witness for C10 at a metrics value with one function and no Halstead
counts (the shape every real run produces). -/
theorem C10_reported_index_always_zero_witness :
    0 < ({ CodeMetrics.zero with functions := 1 } : CodeMetrics).functions ∧
    ({ CodeMetrics.zero with functions := 1 } : CodeMetrics).halstead_unique_operators +
      ({ CodeMetrics.zero with functions := 1 } : CodeMetrics).halstead_unique_operands = 0 ∧
    calculate_maintainability_index { CodeMetrics.zero with functions := 1 } =
      F64.fin 0 :=
  ⟨by decide, by decide,
   C10_reported_index_always_zero.1 { CodeMetrics.zero with functions := 1 }
     (by decide) (by decide)⟩

/-- C9 counterexample: a serialized `FunctionMetric` has no `function_name`
key — the Rust struct declares the field as `function` (main.rs line 31), so
serde emits `function`, not the `function_name` the data-model section
lists. -/
theorem C9_counterexample_function_key :
    jsonKeys (serializeFunctionMetric
        { file := "a.rs", function := "main", complexity := 1, loc := 0 }) =
      ["file", "function", "complexity", "loc"] ∧
    ((jsonKeys (serializeFunctionMetric
        { file := "a.rs", function := "main", complexity := 1, loc := 0 })).contains
      "function_name") = false :=
  ⟨rfl, by decide⟩

/-- C9 (amended): the serialized JSON `Report` preserves the field names of
the Rust data model, in declaration order; every `FunctionMetric` record is
serialized with the fields `{file, function, complexity, loc}` (the code's
field is `function`, not `function_name`). -/
theorem C9_json_field_names :
    ∀ (r : Report) (fm : FileMetrics) (f : FunctionMetric),
      jsonKeys (serializeReport r) =
        ["metrics", "maintainability_index", "files", "top_functions"] ∧
      jsonKeys (serializeCodeMetrics r.metrics) =
        ["loc", "kloc", "cyclomatic_complexity", "functions", "comments",
         "longest_function_loc", "max_nesting_depth",
         "file_with_max_complexity", "max_file_complexity",
         "halstead_operators", "halstead_operands",
         "halstead_unique_operators", "halstead_unique_operands",
         "cyclomatic_distribution"] ∧
      jsonKeys (serializeFileMetrics fm) =
        ["file", "total_complexity", "functions"] ∧
      jsonKeys (serializeFunctionMetric f) =
        ["file", "function", "complexity", "loc"] :=
  fun _ _ _ => ⟨rfl, rfl, rfl, rfl⟩
